import Mathlib

/-!
Shallow embedding of the fancontrol daemon (`fancontrol.c`).

The C program computes with `float`; the claims of the specification are
stated over real-valued quantities, so the arithmetic is embedded exactly
over `ℚ`.  Machine `int` values become `ℤ`, and the one place where
unsigned `size_t` wrap-around matters (the log-rotation limit in
`log_temperature`) is modelled with explicit arithmetic modulo `2 ^ 64`.
-/

set_option linter.unusedVariables false

namespace Fancontrol

/-- The `PIDController` struct: gains plus the mutable `integral` and
`prev_error` fields. -/
structure PIDController where
  Kp : ℚ
  Ki : ℚ
  Kd : ℚ
  integral : ℚ
  prev_error : ℚ
deriving DecidableEq

/-- `PID_Init`: stores the gains and zeroes `integral` and `prev_error`. -/
def PID_Init (Kp Ki Kd : ℚ) : PIDController :=
  { Kp := Kp, Ki := Ki, Kd := Kd, integral := 0, prev_error := 0 }

/-- The two sequential `if` statements that clamp `pid->integral` in
`PID_Calculate`: first pull values above `100.0` down to `100.0`, then
pull values below `0.0` up to `0.0`. -/
def clampIntegral (x : ℚ) : ℚ :=
  let x1 := if x > 100 then 100 else x
  if x1 < 0 then 0 else x1

/-- `PID_Calculate`: one PID step.  Returns the updated controller state
(the C code mutates `*pid` in place) together with the returned output
`Kp * error + Ki * integral + Kd * derivative`, where `integral` is the
accumulator after clamping and `derivative` uses the previous error. -/
def PID_Calculate (pid : PIDController) (setpoint actual_value dt : ℚ) :
    PIDController × ℚ :=
  let error := actual_value - setpoint
  let integral := clampIntegral (pid.integral + error * dt)
  let derivative := (error - pid.prev_error) / dt
  ({ pid with integral := integral, prev_error := error },
   pid.Kp * error + pid.Ki * integral + pid.Kd * derivative)

/-- The C cast `(int)` applied to a nonnegative-or-negative `float` value:
truncation toward zero. -/
def truncToInt (q : ℚ) : ℤ :=
  if 0 ≤ q then ⌊q⌋ else ⌈q⌉

/-- The clamp of the raw PID output at the top of the speed mapping in
`calculate_speed_set`: `output < 0 → 0`, `output > 100 → 100`, otherwise
`output` itself. -/
def clampOutput (output : ℚ) : ℚ :=
  if output < 0 then 0
  else if output > 100 then 100
  else output

/-- `fan_speed_float` in `calculate_speed_set`: `0` when
`percentage <= 0`, otherwise `min_speed + percentage * (max_speed - min_speed)`. -/
def fanFloat (percentage : ℚ) (max_speed min_speed : ℤ) : ℚ :=
  if percentage ≤ 0 then 0
  else (min_speed : ℚ) + percentage * ((max_speed : ℚ) - (min_speed : ℚ))

/-- The final range limit on `fan_speed_set` in `calculate_speed_set`:
values above `max_speed` become `max_speed`, then negative values become
`0`. -/
def clampSpeed (s max_speed : ℤ) : ℤ :=
  if s > max_speed then max_speed
  else if s < 0 then 0
  else s

/-- The speed-mapping portion of `calculate_speed_set` (the specification
calls it `map_to_speed`): clamp the PID output to `[0, 100]`, divide by
`100`, map through `fanFloat`, round by adding `0.5` and casting to
`int`, and apply the final clamp. -/
def map_to_speed (output : ℚ) (max_speed min_speed : ℤ) : ℤ :=
  let percentage := clampOutput output / 100
  let fan_speed_set := truncToInt (fanFloat percentage max_speed min_speed + 1/2)
  clampSpeed fan_speed_set max_speed

/-- `calculate_speed_set`: one PID step with `dt = 1.0` against
`setpoint = (float)target_temp`, followed by the speed mapping.  The C
function keeps the controller in a `static` local; here the state is
passed in and returned explicitly.  `max_temp` is accepted but, exactly
as in the C code, never read. -/
def calculate_speed_set (pid : PIDController) (current_temp : ℚ)
    (max_temp target_temp max_speed min_speed : ℤ) : PIDController × ℤ :=
  let setpoint : ℚ := (target_temp : ℚ)
  let r := PID_Calculate pid setpoint current_temp 1
  (r.1, map_to_speed r.2 max_speed min_speed)

/-- `get_temperature`: the call `read_file(thermal_file, buf, 0)` followed
by `atoi(buf)` is abstracted as an `Option ℤ` sensor value: `some raw`
when the underlying read succeeds and the buffer parses to `raw`, `none`
when `fopen` fails and `read_file` returns `-1`.  On success the reading
is divided by `div`; on failure the sentinel `-1.0` is returned. -/
def get_temperature (sensor : Option ℤ) (div : ℤ) : ℚ :=
  match sensor with
  | some raw => (raw : ℚ) / (div : ℚ)
  | none => -1

/-- One invocation of `log_temperature`, abstracted from file I/O: the
argument list holds the lines currently stored (newest first; an
unreadable history file reads as `[]`), and the result is the list
written back.  `max_lines = 3600 / log_interval` when `log_interval > 0`
(otherwise `360`), computed in `size_t`, and the number of old lines kept
is `line_count` if `line_count < max_lines - 1`, else `max_lines - 1` —
with the `size_t` subtraction wrapping modulo `2 ^ 64`. -/
def log_temperature (log_interval : ℤ) (entries : List ℚ) (current_temp : ℚ) :
    List ℚ :=
  let max_lines : ℕ := if log_interval > 0 then (3600 / log_interval).toNat else 360
  let limit : ℕ := (max_lines + 2 ^ 64 - 1) % 2 ^ 64
  let lines_to_write : ℕ := if entries.length < limit then entries.length else limit
  current_temp :: entries.take lines_to_write

/-- Iterated `PID_Calculate` with `dt = 1`, one call per element of the
input list of `(setpoint, actual_value)` pairs, starting from `pid`. -/
def pid_run (pid : PIDController) : List (ℚ × ℚ) → PIDController
  | [] => pid
  | (setpoint, measured) :: rest => pid_run (PID_Calculate pid setpoint measured 1).1 rest

/-- The control loop, one `calculate_speed_set` evaluation per measured
temperature: the trace records, for each tick, the controller state after
the tick, the raw PID output of the tick, and the commanded speed. -/
def control_trace (pid : PIDController)
    (max_temp target_temp max_speed min_speed : ℤ) : List ℚ → List (PIDController × ℚ × ℤ)
  | [] => []
  | t :: ts =>
    let out := (PID_Calculate pid (target_temp : ℚ) t 1).2
    let r := calculate_speed_set pid t max_temp target_temp max_speed min_speed
    (r.1, out, r.2) :: control_trace r.1 max_temp target_temp max_speed min_speed ts

/-- A list of rationals is non-increasing: each element is at most its
predecessor. -/
def noninc : List ℚ → Prop
  | [] => True
  | [_] => True
  | a :: b :: l => b ≤ a ∧ noninc (b :: l)

instance noninc.instDecidable : (l : List ℚ) → Decidable (noninc l)
  | [] => inferInstanceAs (Decidable True)
  | [_] => inferInstanceAs (Decidable True)
  | _ :: b :: l =>
    have := noninc.instDecidable (b :: l)
    inferInstanceAs (Decidable (_ ∧ _))

/-! ### Helper lemmas about the clamps and the rounding cast -/

theorem clampIntegral_nonneg (x : ℚ) : 0 ≤ clampIntegral x := by
  simp only [clampIntegral]
  split_ifs <;> linarith

theorem clampIntegral_le_100 (x : ℚ) : clampIntegral x ≤ 100 := by
  simp only [clampIntegral]
  split_ifs <;> linarith

theorem clampIntegral_of_neg {x : ℚ} (h : x < 0) : clampIntegral x = 0 := by
  simp only [clampIntegral]
  rw [if_neg (by linarith : ¬ x > 100), if_pos h]

theorem clampOutput_nonneg (x : ℚ) : 0 ≤ clampOutput x := by
  simp only [clampOutput]
  split_ifs <;> linarith

theorem clampOutput_le_100 (x : ℚ) : clampOutput x ≤ 100 := by
  simp only [clampOutput]
  split_ifs <;> linarith

theorem clampOutput_of_nonpos {x : ℚ} (h : x ≤ 0) : clampOutput x = 0 := by
  simp only [clampOutput]
  split_ifs with h1 h2
  · rfl
  · linarith
  · linarith

theorem clampOutput_pos {x : ℚ} (h : 0 < x) : 0 < clampOutput x := by
  simp only [clampOutput]
  split_ifs <;> linarith

theorem clampOutput_mono {a b : ℚ} (h : a ≤ b) : clampOutput a ≤ clampOutput b := by
  simp only [clampOutput]
  split_ifs <;> linarith

theorem truncToInt_of_nonneg {q : ℚ} (h : 0 ≤ q) : truncToInt q = ⌊q⌋ := by
  simp only [truncToInt, if_pos h]

theorem truncToInt_mono {a b : ℚ} (h : a ≤ b) : truncToInt a ≤ truncToInt b := by
  simp only [truncToInt]
  split_ifs with ha hb hc
  · exact Int.floor_mono h
  · exact absurd (le_trans ha h) hb
  · refine le_trans (Int.ceil_le.mpr ?_) (Int.floor_nonneg.mpr hc)
    push_cast
    linarith [not_le.mp ha]
  · exact Int.ceil_mono h

theorem truncToInt_half : truncToInt (1/2 : ℚ) = 0 := by
  rw [truncToInt_of_nonneg (by norm_num)]
  exact Int.floor_eq_zero_iff.mpr (Set.mem_Ico.mpr ⟨by norm_num, by norm_num⟩)

theorem clampSpeed_mem (s : ℤ) {max_speed : ℤ} (hmax : 0 ≤ max_speed) :
    0 ≤ clampSpeed s max_speed ∧ clampSpeed s max_speed ≤ max_speed := by
  simp only [clampSpeed]
  split_ifs <;> omega

theorem clampSpeed_mono {s t max_speed : ℤ} (hmax : 0 ≤ max_speed) (h : s ≤ t) :
    clampSpeed s max_speed ≤ clampSpeed t max_speed := by
  simp only [clampSpeed]
  split_ifs <;> omega

theorem clampSpeed_of_between {s max_speed : ℤ} (h0 : 0 ≤ s) (h1 : s ≤ max_speed) :
    clampSpeed s max_speed = s := by
  simp only [clampSpeed]
  split_ifs <;> omega

theorem clampSpeed_eq_max {s max_speed : ℤ} (hmax : 0 ≤ max_speed) (h : max_speed ≤ s) :
    clampSpeed s max_speed = max_speed := by
  simp only [clampSpeed]
  split_ifs <;> omega

/-- When the PID output is nonpositive and `max_speed` is nonnegative the
mapped speed is exactly `0`. -/
theorem map_to_speed_of_nonpos {output : ℚ} {max_speed min_speed : ℤ}
    (hout : output ≤ 0) (hmax : 0 ≤ max_speed) :
    map_to_speed output max_speed min_speed = 0 := by
  simp only [map_to_speed]
  rw [clampOutput_of_nonpos hout, zero_div]
  have hf : fanFloat 0 max_speed min_speed = 0 := by
    simp only [fanFloat]
    rw [if_pos le_rfl]
  rw [hf, zero_add, truncToInt_half]
  exact clampSpeed_of_between le_rfl hmax

/-- Bounds of `pid_run`: the integral accumulator stays in `[0, 100]`
along any run whose starting state satisfies the bound. -/
theorem pid_run_integral_mem (inputs : List (ℚ × ℚ)) :
    ∀ pid : PIDController, 0 ≤ pid.integral → pid.integral ≤ 100 →
      0 ≤ (pid_run pid inputs).integral ∧ (pid_run pid inputs).integral ≤ 100 := by
  induction inputs with
  | nil =>
    intro pid h0 h1
    exact ⟨h0, h1⟩
  | cons p rest ih =>
    intro pid h0 h1
    obtain ⟨setpoint, measured⟩ := p
    simp only [pid_run]
    exact ih _ (clampIntegral_nonneg _) (clampIntegral_le_100 _)

/-! ### The claims -/

/-- C1 as stated is false: with `max_speed = -1` (and, say, PID output `0`
and `min_speed = 35`) the speed returned by the mapping portion of
`calculate_speed_set` is `-1`, which does not lie in `[0, max_speed]`. -/
theorem speed_range_cex :
    ¬ (0 ≤ map_to_speed 0 (-1) 35 ∧ map_to_speed 0 (-1) 35 ≤ -1) := by decide!

/-- C1 (amended: `0 ≤ max_speed`): for every real-valued PID output and
all integers `min_speed` and `max_speed` with `0 ≤ max_speed`, the speed
produced by the mapping portion of `calculate_speed_set` lies in
`[0, max_speed]`. -/
theorem speed_range_of_max_nonneg (output : ℚ) (max_speed min_speed : ℤ)
    (hmax : 0 ≤ max_speed) :
    0 ≤ map_to_speed output max_speed min_speed ∧
      map_to_speed output max_speed min_speed ≤ max_speed := by
  simp only [map_to_speed]
  exact clampSpeed_mem _ hmax

/-- Witness for C1 at output `60.1`, `max_speed = 255`, `min_speed = 35`. -/
theorem speed_range_of_max_nonneg_witness :
    (0 : ℤ) ≤ 255 ∧
      (0 ≤ map_to_speed (601/10) 255 35 ∧ map_to_speed (601/10) 255 35 ≤ 255) :=
  ⟨by decide!, speed_range_of_max_nonneg (601/10) 255 35 (by decide!)⟩

/-- C2: starting from the initialized PID state, after any finite sequence
of `PID_Calculate` calls with `dt = 1` and arbitrary setpoint and measured
values, the integral accumulator lies in `[0, 100]`. -/
theorem integral_always_bounded (Kp Ki Kd : ℚ) (inputs : List (ℚ × ℚ)) :
    0 ≤ (pid_run (PID_Init Kp Ki Kd) inputs).integral ∧
      (pid_run (PID_Init Kp Ki Kd) inputs).integral ≤ 100 :=
  pid_run_integral_mem inputs (PID_Init Kp Ki Kd) le_rfl (by norm_num [PID_Init])

/-- C3 fails on the code: with `log_interval = 3601` the capacity
`3600 / 3601` is `0`, the `size_t` subtraction `max_lines - 1` wraps to
`2 ^ 64 - 1`, and so every old line is kept.  After two log events on an
empty log the store holds `2` entries while the claimed bound
`max(1, 3600 / 3601)` is `1`. -/
theorem log_bound_violation :
    (log_temperature 3601 (log_temperature 3601 [] 50) 51).length = 2 ∧
      max 1 ((3600 : ℤ) / 3601).toNat = 1 := by decide!

/-- C4 (Scenario A): gains `Kp = 5`, `Ki = 1`, `Kd = 0.01`, fresh state,
setpoint `55`, measured `65`, `dt = 1`, `min_speed = 35`,
`max_speed = 255`: the stored error is `10`, the integral is `10`, the
PID output is `60.1`, and the commanded speed is exactly `167`. -/
theorem scenario_a :
    (calculate_speed_set (PID_Init 5 1 (1/100)) 65 120 55 255 35).1.prev_error = 10 ∧
      (calculate_speed_set (PID_Init 5 1 (1/100)) 65 120 55 255 35).1.integral = 10 ∧
      (PID_Calculate (PID_Init 5 1 (1/100)) 55 65 1).2 = 601/10 ∧
      (calculate_speed_set (PID_Init 5 1 (1/100)) 65 120 55 255 35).2 = 167 := by decide!

/-- C5 as stated is false: with PID output `-5`, `max_speed = -1` and
`min_speed = 35` the mapped speed is `-1`, not `0`. -/
theorem zero_at_no_demand_cex :
    (-5 : ℚ) ≤ 0 ∧ map_to_speed (-5) (-1) 35 ≠ 0 := by decide!

/-- C5 (amended: `0 ≤ max_speed`): whenever the PID output is at most `0`
and `max_speed` is nonnegative, the mapped speed is exactly `0` for every
`min_speed` — `min_speed` is not applied. -/
theorem zero_at_no_demand_of_max_nonneg (output : ℚ) (max_speed min_speed : ℤ)
    (hout : output ≤ 0) (hmax : 0 ≤ max_speed) :
    map_to_speed output max_speed min_speed = 0 :=
  map_to_speed_of_nonpos hout hmax

/-- Witness for C5 at output `-5`, `max_speed = 255`, `min_speed = 35`. -/
theorem zero_at_no_demand_of_max_nonneg_witness :
    ((-5 : ℚ) ≤ 0 ∧ (0 : ℤ) ≤ 255) ∧ map_to_speed (-5) 255 35 = 0 :=
  ⟨⟨by decide!, by decide!⟩,
    zero_at_no_demand_of_max_nonneg (-5) 255 35 (by decide!) (by decide!)⟩

/-- C8: `max_temp` has no influence: two `calculate_speed_set` calls that
agree on everything except `max_temp` return the same speed and the same
updated PID state. -/
theorem max_temp_irrelevant (pid : PIDController) (current_temp : ℚ)
    (max_temp₁ max_temp₂ target_temp max_speed min_speed : ℤ) :
    calculate_speed_set pid current_temp max_temp₁ target_temp max_speed min_speed =
      calculate_speed_set pid current_temp max_temp₂ target_temp max_speed min_speed := rfl

/-- C9 as stated is false: `-1.0` is not returned exactly on read failure.
A successful read of the raw value `-1000` with `div = 1000` also yields
`-1.0`. -/
theorem sentinel_not_exclusive_cex :
    get_temperature (some (-1000)) 1000 = -1 ∧ some (-1000) ≠ (none : Option ℤ) := by
  decide!

/-- C9 (amended): when the underlying read fails `get_temperature` returns
the sentinel `-1.0`, and when it succeeds it returns the raw reading
divided by `div`; a successful negative reading may coincide with the
sentinel, so `-1.0` does not occur exclusively on failure.  (`div ≠ 0`
keeps the embedding faithful: the C `float` division by zero is not
modelled.) -/
theorem get_temperature_amended (sensor : Option ℤ) (div : ℤ) (hdiv : div ≠ 0) :
    (sensor = none → get_temperature sensor div = -1) ∧
      (∀ raw : ℤ, sensor = some raw →
        get_temperature sensor div = (raw : ℚ) / (div : ℚ)) := by
  constructor
  · intro h
    rw [h]
    rfl
  · intro raw h
    rw [h]
    rfl

/-- Witness for C9 at a failed read with `div = 1000`. -/
theorem get_temperature_amended_witness :
    (1000 : ℤ) ≠ 0 ∧
      (((none : Option ℤ) = none → get_temperature none 1000 = -1) ∧
        (∀ raw : ℤ, (none : Option ℤ) = some raw →
          get_temperature (none : Option ℤ) 1000 = (raw : ℚ) / (1000 : ℚ))) :=
  ⟨by decide!, get_temperature_amended none 1000 (by decide!)⟩

/-- When `max_speed < min_speed` but `0 ≤ max_speed`, every positive
percentage maps to exactly `max_speed`: the interpolated value stays at or
above `max_speed`, so the final clamp pins it there. -/
theorem trunc_speed_eq_max {max_speed min_speed : ℤ} {p : ℚ}
    (hmax : 0 ≤ max_speed) (hlt : max_speed < min_speed) (hp0 : 0 < p) (hp1 : p ≤ 1) :
    clampSpeed
      (truncToInt ((min_speed : ℚ) + p * ((max_speed : ℚ) - (min_speed : ℚ)) + 1/2))
      max_speed = max_speed := by
  have hcast : (max_speed : ℚ) < (min_speed : ℚ) := by exact_mod_cast hlt
  have hmaxq : (0 : ℚ) ≤ (max_speed : ℚ) := by exact_mod_cast hmax
  have hfm : (max_speed : ℚ) ≤ (min_speed : ℚ) + p * ((max_speed : ℚ) - (min_speed : ℚ)) := by
    nlinarith [mul_nonneg (by linarith : (0:ℚ) ≤ 1 - p) (by linarith : (0:ℚ) ≤ (min_speed : ℚ) - (max_speed : ℚ))]
  have h0 : (0 : ℚ) ≤ (min_speed : ℚ) + p * ((max_speed : ℚ) - (min_speed : ℚ)) + 1/2 := by
    linarith
  rw [truncToInt_of_nonneg h0]
  refine clampSpeed_eq_max hmax (Int.le_floor.mpr ?_)
  linarith

/-- C6 as stated is false: with `max_speed = -2` and `min_speed = -10`,
PID output `10` maps to speed `0` while the larger output `100` maps to
speed `-2`. -/
theorem map_monotone_cex :
    (10 : ℚ) ≤ 100 ∧
      ¬ (map_to_speed 10 (-2) (-10) ≤ map_to_speed 100 (-2) (-10)) := by decide!

/-- C6 (amended: `0 ≤ max_speed`): for fixed `min_speed` and nonnegative
`max_speed`, the speed mapping is monotone in the PID output. -/
theorem map_monotone_of_max_nonneg (a b : ℚ) (max_speed min_speed : ℤ)
    (hmax : 0 ≤ max_speed) (hab : a ≤ b) :
    map_to_speed a max_speed min_speed ≤ map_to_speed b max_speed min_speed := by
  by_cases ha : a ≤ 0
  · rw [map_to_speed_of_nonpos ha hmax]
    exact (clampSpeed_mem _ hmax).1
  · push_neg at ha
    have hb : (0:ℚ) < b := lt_of_lt_of_le ha hab
    have hca : 0 < clampOutput a := clampOutput_pos ha
    have hcb : 0 < clampOutput b := clampOutput_pos hb
    have hpa : (0:ℚ) < clampOutput a / 100 := div_pos hca (by norm_num)
    have hpb : (0:ℚ) < clampOutput b / 100 := div_pos hcb (by norm_num)
    have hpa1 : clampOutput a / 100 ≤ 1 :=
      (div_le_one (by norm_num)).mpr (clampOutput_le_100 a)
    have hpb1 : clampOutput b / 100 ≤ 1 :=
      (div_le_one (by norm_num)).mpr (clampOutput_le_100 b)
    have hpab : clampOutput a / 100 ≤ clampOutput b / 100 := by
      apply div_le_div_of_nonneg_right ?_ ?_ <;> first
        | exact clampOutput_mono hab
        | norm_num
    simp only [map_to_speed]
    have hfa : fanFloat (clampOutput a / 100) max_speed min_speed =
        (min_speed : ℚ) + (clampOutput a / 100) * ((max_speed : ℚ) - (min_speed : ℚ)) := by
      simp only [fanFloat]
      rw [if_neg (not_le.mpr hpa)]
    have hfb : fanFloat (clampOutput b / 100) max_speed min_speed =
        (min_speed : ℚ) + (clampOutput b / 100) * ((max_speed : ℚ) - (min_speed : ℚ)) := by
      simp only [fanFloat]
      rw [if_neg (not_le.mpr hpb)]
    rw [hfa, hfb]
    rcases le_or_lt min_speed max_speed with hle | hlt
    · refine clampSpeed_mono hmax (truncToInt_mono ?_)
      have hd : (0:ℚ) ≤ (max_speed : ℚ) - (min_speed : ℚ) := by
        rw [sub_nonneg]
        exact_mod_cast hle
      nlinarith [mul_le_mul_of_nonneg_right hpab hd]
    · rw [trunc_speed_eq_max hmax hlt hpa hpa1, trunc_speed_eq_max hmax hlt hpb hpb1]

/-- Witness for C6 at outputs `10 ≤ 20`, `max_speed = 255`, `min_speed = 35`. -/
theorem map_monotone_of_max_nonneg_witness :
    ((0 : ℤ) ≤ 255 ∧ (10 : ℚ) ≤ 20) ∧
      map_to_speed 10 255 35 ≤ map_to_speed 20 255 35 :=
  ⟨⟨by decide!, by decide!⟩,
    map_monotone_of_max_nonneg 10 20 255 35 (by decide!) (by decide!)⟩

/-- C10: whenever `0 ≤ min_speed ≤ max_speed`, the speed returned by the
mapping portion of `calculate_speed_set` is either exactly `0` or lies in
`[min_speed, max_speed]`; no positive speed strictly below `min_speed` is
produced. -/
theorem speed_zero_or_in_band (output : ℚ) (max_speed min_speed : ℤ)
    (hmin : 0 ≤ min_speed) (hle : min_speed ≤ max_speed) :
    map_to_speed output max_speed min_speed = 0 ∨
      (min_speed ≤ map_to_speed output max_speed min_speed ∧
        map_to_speed output max_speed min_speed ≤ max_speed) := by
  by_cases ha : output ≤ 0
  · exact Or.inl (map_to_speed_of_nonpos ha (le_trans hmin hle))
  · right
    push_neg at ha
    have hca : 0 < clampOutput output := clampOutput_pos ha
    have hp : (0:ℚ) < clampOutput output / 100 := div_pos hca (by norm_num)
    have hp1 : clampOutput output / 100 ≤ 1 :=
      (div_le_one (by norm_num)).mpr (clampOutput_le_100 output)
    have hminq : (0:ℚ) ≤ (min_speed : ℚ) := by exact_mod_cast hmin
    have hleq : (min_speed : ℚ) ≤ (max_speed : ℚ) := by exact_mod_cast hle
    simp only [map_to_speed]
    have hf : fanFloat (clampOutput output / 100) max_speed min_speed =
        (min_speed : ℚ) + (clampOutput output / 100) * ((max_speed : ℚ) - (min_speed : ℚ)) := by
      simp only [fanFloat]
      rw [if_neg (not_le.mpr hp)]
    rw [hf]
    have hlo : (min_speed : ℚ) ≤
        (min_speed : ℚ) + (clampOutput output / 100) * ((max_speed : ℚ) - (min_speed : ℚ)) := by
      nlinarith [mul_nonneg hp.le (by linarith : (0:ℚ) ≤ (max_speed : ℚ) - (min_speed : ℚ))]
    have hhi : (min_speed : ℚ) + (clampOutput output / 100) * ((max_speed : ℚ) - (min_speed : ℚ)) ≤
        (max_speed : ℚ) := by
      nlinarith [mul_nonneg (by linarith : (0:ℚ) ≤ 1 - clampOutput output / 100)
        (by linarith : (0:ℚ) ≤ (max_speed : ℚ) - (min_speed : ℚ))]
    rw [truncToInt_of_nonneg (by linarith)]
    have hlow : min_speed ≤
        ⌊(min_speed : ℚ) + (clampOutput output / 100) * ((max_speed : ℚ) - (min_speed : ℚ)) + 1/2⌋ := by
      refine Int.le_floor.mpr ?_
      linarith
    have hup :
        ⌊(min_speed : ℚ) + (clampOutput output / 100) * ((max_speed : ℚ) - (min_speed : ℚ)) + 1/2⌋ ≤
          max_speed := by
      have := Int.floor_lt.mpr (show
        (min_speed : ℚ) + (clampOutput output / 100) * ((max_speed : ℚ) - (min_speed : ℚ)) + 1/2 <
          ((max_speed + 1 : ℤ) : ℚ) by push_cast; linarith)
      omega
    rw [clampSpeed_of_between (le_trans hmin hlow) hup]
    exact ⟨hlow, hup⟩

/-- Witness for C10 at output `60.1`, `min_speed = 35`, `max_speed = 255`. -/
theorem speed_zero_or_in_band_witness :
    ((0 : ℤ) ≤ 35 ∧ (35 : ℤ) ≤ 255) ∧
      (map_to_speed (601/10) 255 35 = 0 ∨
        (35 ≤ map_to_speed (601/10) 255 35 ∧ map_to_speed (601/10) 255 35 ≤ 255)) :=
  ⟨⟨by decide!, by decide!⟩,
    speed_zero_or_in_band (601/10) 255 35 (by decide!) (by decide!)⟩

/-- One cool tick: if the integral is `0`, the measured value is below the
setpoint and the new error does not exceed the previous one, then after
`PID_Calculate` the integral clamps to `0`, the stored error is the new
error, and the output is nonpositive (for nonnegative `Kp` and `Kd`; the
integral term vanishes, so no sign condition on `Ki` is needed). -/
theorem pid_step_cool (pid : PIDController) (target_temp : ℤ) (t : ℚ)
    (hKp : 0 ≤ pid.Kp) (hKd : 0 ≤ pid.Kd)
    (hint : pid.integral = 0) (ht : t < (target_temp : ℚ))
    (hprev : t - (target_temp : ℚ) ≤ pid.prev_error) :
    (PID_Calculate pid (target_temp : ℚ) t 1).1.integral = 0 ∧
      (PID_Calculate pid (target_temp : ℚ) t 1).1.prev_error = t - (target_temp : ℚ) ∧
      (PID_Calculate pid (target_temp : ℚ) t 1).2 ≤ 0 := by
  have herr : t - (target_temp : ℚ) < 0 := by linarith
  have hclamp : clampIntegral (pid.integral + (t - (target_temp : ℚ)) * 1) = 0 := by
    rw [hint, zero_add, mul_one]
    exact clampIntegral_of_neg herr
  refine ⟨hclamp, rfl, ?_⟩
  show pid.Kp * (t - (target_temp : ℚ)) +
      pid.Ki * clampIntegral (pid.integral + (t - (target_temp : ℚ)) * 1) +
      pid.Kd * ((t - (target_temp : ℚ) - pid.prev_error) / 1) ≤ 0
  rw [hclamp, mul_zero, add_zero, div_one]
  nlinarith [mul_nonneg hKp (by linarith : (0:ℚ) ≤ (target_temp : ℚ) - t),
    mul_nonneg hKd (by linarith : (0:ℚ) ≤ pid.prev_error - (t - (target_temp : ℚ)))]

theorem noninc_of_cons {a : ℚ} {l : List ℚ} (h : noninc (a :: l)) : noninc l := by
  cases l with
  | nil => trivial
  | cons b l' => exact h.2

/-- Invariant of the cool run: if the controller starts a run with zero
integral and a previous error at least the first error, and the measured
temperatures are all below the target and non-increasing, then every tick
of the trace has zero integral, nonpositive output and speed `0`. -/
theorem control_trace_cool (max_temp target_temp max_speed min_speed : ℤ)
    (hmax : 0 ≤ max_speed) :
    ∀ (temps : List ℚ) (pid : PIDController),
      0 ≤ pid.Kp → 0 ≤ pid.Kd → pid.integral = 0 →
      (∀ t0, temps.head? = some t0 → t0 - (target_temp : ℚ) ≤ pid.prev_error) →
      (∀ t ∈ temps, t < (target_temp : ℚ)) → noninc temps →
      ∀ e ∈ control_trace pid max_temp target_temp max_speed min_speed temps,
        e.1.integral = 0 ∧ e.2.1 ≤ 0 ∧ e.2.2 = 0 := by
  intro temps
  induction temps with
  | nil =>
    intro pid _ _ _ _ _ _ e he
    simp [control_trace] at he
  | cons t ts ih =>
    intro pid hKp hKd hint hhead hbelow hni e he
    have ht : t < (target_temp : ℚ) := hbelow t (List.mem_cons_self t ts)
    have hprev : t - (target_temp : ℚ) ≤ pid.prev_error := hhead t rfl
    obtain ⟨h1, h2, h3⟩ := pid_step_cool pid target_temp t hKp hKd hint ht hprev
    have hspeed :
        map_to_speed (PID_Calculate pid (target_temp : ℚ) t 1).2 max_speed min_speed = 0 :=
      map_to_speed_of_nonpos h3 hmax
    simp only [control_trace] at he
    rcases List.mem_cons.mp he with hhd | htl
    · rw [hhd]
      exact ⟨h1, h3, hspeed⟩
    · refine ih (calculate_speed_set pid t max_temp target_temp max_speed min_speed).1
        hKp hKd h1 ?_ (fun x hx => hbelow x (List.mem_cons_of_mem _ hx))
        (noninc_of_cons hni) e htl
      intro t0 h0
      cases ts with
      | nil => simp at h0
      | cons b l =>
        have hb : b = t0 := by
          simpa using h0
        have hble : b ≤ t := hni.1
        show t0 - (target_temp : ℚ) ≤
          (PID_Calculate pid (target_temp : ℚ) t 1).1.prev_error
        rw [h2]
        subst hb
        linarith

/-- C7: in any finite run from the freshly initialized controller
(nonnegative `Kp` and `Kd`, nonnegative `max_speed`) in which every
measured temperature is strictly below the target and the temperatures
(hence the errors) are non-increasing, every tick has integral clamped to
`0`, PID output at most `0`, and commanded fan speed exactly `0`. -/
theorem cool_run_pinned_at_zero (Kp Ki Kd : ℚ)
    (max_temp target_temp max_speed min_speed : ℤ) (temps : List ℚ)
    (hKp : 0 ≤ Kp) (hKd : 0 ≤ Kd) (hmax : 0 ≤ max_speed)
    (hbelow : ∀ t ∈ temps, t < (target_temp : ℚ)) (hni : noninc temps) :
    ∀ e ∈ control_trace (PID_Init Kp Ki Kd) max_temp target_temp max_speed min_speed temps,
      e.1.integral = 0 ∧ e.2.1 ≤ 0 ∧ e.2.2 = 0 := by
  refine control_trace_cool max_temp target_temp max_speed min_speed hmax temps
    (PID_Init Kp Ki Kd) hKp hKd rfl ?_ hbelow hni
  intro t0 h0
  have hmem : t0 ∈ temps := by
    cases temps with
    | nil => simp at h0
    | cons a l =>
      have : a = t0 := by simpa using h0
      exact this ▸ List.mem_cons_self a l
  have := hbelow t0 hmem
  show t0 - (target_temp : ℚ) ≤ (0 : ℚ)
  linarith

/-- Witness for C7: gains `5, 1, 0.01`, target `55`, temperatures
`50, 49, 49`, `max_speed = 255`, `min_speed = 35`. -/
theorem cool_run_pinned_at_zero_witness :
    ((0:ℚ) ≤ 5 ∧ (0:ℚ) ≤ 1/100 ∧ (0:ℤ) ≤ 255 ∧
        (∀ t ∈ [(50:ℚ), 49, 49], t < ((55:ℤ) : ℚ)) ∧ noninc [(50:ℚ), 49, 49]) ∧
      ∀ e ∈ control_trace (PID_Init 5 1 (1/100)) 120 55 255 35 [(50:ℚ), 49, 49],
        e.1.integral = 0 ∧ e.2.1 ≤ 0 ∧ e.2.2 = 0 :=
  ⟨⟨by decide!, by decide!, by decide!, by decide!, by decide!⟩,
    cool_run_pinned_at_zero 5 1 (1/100) 120 55 255 35 [50, 49, 49]
      (by decide!) (by decide!) (by decide!) (by decide!) (by decide!)⟩

end Fancontrol
